import Mathlib

/-
Verification of the BricksLLM route proxy handler
(internal/server/web/proxy/route.go) and the process shutdown sequence
(cmd/bricksllm/main.go).

Shallow embedding conventions:
- byte slices are lists of naturals;
- Go float64 cost values are modelled as rationals (no rounding behaviour of
  IEEE floats is relied on by any theorem below);
- external collaborators (the cache, route.RunSteps, json.Unmarshal, the
  cost estimators, time.ParseDuration) are function-valued parameters in an
  `Env` record, so theorems quantify over their behaviour;
- observable side effects of the handler (cache reads/writes, RunSteps,
  estimator calls, recorder calls, log lines) are collected in an explicit
  trace; telemetry (stats.Incr / stats.Timing) and runRes.Cancel are not
  modelled, as no claim concerns them;
- gin's Context.Header(key, value) delegates to Writer.Header().Set, which
  replaces all previous values of the key, and deletes the key when value
  is empty; this documented gin semantics is modelled by `setRespHeader`.
-/

namespace BricksLLM

/-- Byte slices ([]byte) as lists of bytes. -/
abbrev Bytes := List Nat

/-- Go errors: context.DeadlineExceeded, possibly wrapped, or any other
error value.  `errors.Is(err, context.DeadlineExceeded)` unwraps. -/
inductive GoError where
  | deadlineExceeded : GoError
  | wrap : GoError → GoError
  | other : String → GoError
deriving Repr, DecidableEq

/-- Models errors.Is(err, context.DeadlineExceeded). -/
def GoError.isDeadlineExceeded : GoError → Bool
  | .deadlineExceeded => true
  | .wrap e => e.isDeadlineExceeded
  | .other _ => false

/-- The usage block of an OpenAI-style response. -/
structure Usage where
  promptTokens : Nat
  completionTokens : Nat
  totalTokens : Nat
deriving Repr, DecidableEq

/-- EmbeddingResponse (float encoding): only the usage block is read. -/
structure EmbeddingResponse where
  usage : Usage
deriving Repr, DecidableEq

/-- EmbeddingResponseBase64: only the usage block is read. -/
structure EmbeddingResponseBase64 where
  usage : Usage
deriving Repr, DecidableEq

/-- goopenai.ChatCompletionResponse: the fields route.go reads. -/
structure ChatCompletionResponse where
  model : String
  usage : Usage
deriving Repr, DecidableEq

/-- An upstream http.Response as the handler observes it: status code,
headers, and the outcome of io.ReadAll on the body. -/
structure HttpResponse where
  statusCode : Nat
  header : List (String × List String)
  bodyRead : Except GoError Bytes

/-- route.RunSteps result: `{Response, Provider, Model, Cancel}` (Cancel has
no observable state here). -/
structure RunRes where
  response : HttpResponse
  provider : String
  model : String

/-- The gin request context as the handler reads it: which keys were set by
the middleware, and with which values. -/
structure ReqCtx where
  requestNil : Bool
  hasKey : Bool
  hasRouteConfig : Bool
  cacheConfigTtl : Option String
  cacheKey : String
  hasSettings : Bool
  encodingFormat : String
  runEmbeddings : Bool
deriving Repr, DecidableEq

/-- Values written into the gin context by c.Set. -/
inductive CtxValue where
  | str : String → CtxValue
  | num : ℚ → CtxValue
  | nat : Nat → CtxValue
deriving Repr, DecidableEq

/-- Observable external effects of a handler invocation. -/
inductive Effect where
  | cacheGet : String → Effect
  | cacheStore : String → Bytes → Int → Effect
  | runStepsCall : Effect
  | parseResultCall : Effect
  | recordKeySpend : String → Int → Effect
  | admissionCheck : Effect
  | emitEvent : Effect
  | estimateAzureEmbeddingsCost : String → Nat → Effect
  | estimateOpenAiEmbeddingsCost : String → Nat → Effect
  | estimateAzureTotalCost : String → Nat → Nat → Effect
  | estimateOpenAiTotalCost : String → Nat → Nat → Effect
  | logErrorLine : String → Effect
deriving Repr, DecidableEq

/-- External collaborators of the handler, as functions. -/
structure Env where
  getBytes : String → Except GoError Bytes
  storeBytes : String → Bytes → Int → Option GoError
  parseDuration : String → Except GoError Int
  runSteps : Except GoError RunRes
  unmarshalEmbedding : Bytes → Except GoError EmbeddingResponse
  unmarshalEmbeddingBase64 : Bytes → Except GoError EmbeddingResponseBase64
  unmarshalChat : Bytes → Except GoError ChatCompletionResponse
  azureEstimateEmbeddingsInputCost : String → Nat → Except GoError ℚ
  openaiEstimateEmbeddingsInputCost : String → Nat → Except GoError ℚ
  azureEstimateTotalCost : String → Nat → Nat → Except GoError ℚ
  openaiEstimateTotalCost : String → Nat → Nat → Except GoError ℚ

/-- Response body written to the client: either c.Data raw bytes or the
JSON helper's error message. -/
inductive RespBody where
  | data : Bytes → RespBody
  | jsonMsg : String → RespBody
deriving Repr, DecidableEq

/-- The outcome of one handler invocation. -/
structure HandlerResult where
  status : Nat
  body : RespBody
  headers : List (String × String)
  ctxSets : List (String × CtxValue)
  effects : List Effect
deriving Repr, DecidableEq

/-- gin Context.Header(name, value): Set replaces every existing value of
the name; an empty value deletes the header. -/
def setRespHeader (hs : List (String × String)) (name value : String) :
    List (String × String) :=
  if value = "" then hs.filter (fun p => p.1 != name)
  else if hs.any (fun p => p.1 == name) then
    hs.map (fun p => if p.1 == name then (name, value) else p)
  else hs ++ [(name, value)]

/-- The inner loop `for _, value := range values { c.Header(name, value) }`. -/
def applyHeaderValues (hs : List (String × String)) (name : String)
    (vs : List String) : List (String × String) :=
  vs.foldl (fun h v => setRespHeader h name v) hs

/-- The loop `for name, values := range res.Header { ... }` of route.go,
starting from an empty client header map. -/
def copyRespHeaders (upstream : List (String × List String)) :
    List (String × String) :=
  upstream.foldl (fun hs nv => applyHeaderValues hs nv.1 nv.2) []

/-- The four context writes deferred in parseResult:
provider, costInUsd, promptTokenCount, completionTokenCount. -/
def parseResultSets (provider : String) (cost : ℚ)
    (promptTokenCounts completionTokenCounts : Nat) :
    List (String × CtxValue) :=
  [("provider", .str provider), ("costInUsd", .num cost),
   ("promptTokenCount", .nat promptTokenCounts),
   ("completionTokenCount", .nat completionTokenCounts)]

/-- Result of a parseResult invocation: returned error, deferred context
writes, and external calls made. -/
structure ParseOut where
  err : Option GoError
  ctxSets : List (String × CtxValue)
  effects : List Effect
deriving Repr

/-- The provider dispatch of the embeddings branch of parseResult
(route.go lines 218-232): only "azure" and "openai" estimate a cost. -/
def embeddingsCost (env : Env) (provider model : String)
    (totalTokens promptTokenCounts : Nat) : ParseOut :=
  if provider = "azure" then
    match env.azureEstimateEmbeddingsInputCost model totalTokens with
    | .error e => ⟨some e, parseResultSets provider 0 promptTokenCounts 0,
        [.estimateAzureEmbeddingsCost model totalTokens]⟩
    | .ok ecost => ⟨none, parseResultSets provider ecost promptTokenCounts 0,
        [.estimateAzureEmbeddingsCost model totalTokens]⟩
  else if provider = "openai" then
    match env.openaiEstimateEmbeddingsInputCost model totalTokens with
    | .error e => ⟨some e, parseResultSets provider 0 promptTokenCounts 0,
        [.estimateOpenAiEmbeddingsCost model totalTokens]⟩
    | .ok ecost => ⟨none, parseResultSets provider ecost promptTokenCounts 0,
        [.estimateOpenAiEmbeddingsCost model totalTokens]⟩
  else ⟨none, parseResultSets provider 0 promptTokenCounts 0, []⟩

/-- parseResult of route.go (lines 176-273).  The deferred c.Set calls run
on every return, with whatever values cost / promptTokenCounts /
completionTokenCounts hold at that return.  The RecordKeySpend calls of the
source are commented out, so no recordKeySpend effect is ever emitted. -/
def parseResult (env : Env) (encodingFormat : String) (runEmbeddings : Bool)
    (bytes : Bytes) (model provider : String) : ParseOut :=
  if runEmbeddings then
    if encodingFormat = "base64" then
      match env.unmarshalEmbeddingBase64 bytes with
      | .error e => ⟨some e, parseResultSets provider 0 0 0, []⟩
      | .ok base64ChatRes =>
        embeddingsCost env provider model base64ChatRes.usage.totalTokens
          base64ChatRes.usage.promptTokens
    else
      match env.unmarshalEmbedding bytes with
      | .error e => ⟨some e, parseResultSets provider 0 0 0, []⟩
      | .ok chatRes =>
        embeddingsCost env provider model chatRes.usage.totalTokens
          chatRes.usage.promptTokens
  else
    match env.unmarshalChat bytes with
    | .error e => ⟨some e, parseResultSets provider 0 0 0, []⟩
    | .ok chatRes =>
      let promptTokenCounts := chatRes.usage.promptTokens
      let completionTokenCounts := chatRes.usage.completionTokens
      if provider = "azure" then
        match env.azureEstimateTotalCost chatRes.model promptTokenCounts
            completionTokenCounts with
        | .error e =>
          ⟨some e, parseResultSets provider 0 promptTokenCounts completionTokenCounts,
            [.estimateAzureTotalCost chatRes.model promptTokenCounts completionTokenCounts]⟩
        | .ok cost =>
          ⟨none, parseResultSets provider cost promptTokenCounts completionTokenCounts,
            [.estimateAzureTotalCost chatRes.model promptTokenCounts completionTokenCounts]⟩
      else if provider = "openai" then
        match env.openaiEstimateTotalCost chatRes.model promptTokenCounts
            completionTokenCounts with
        | .error e =>
          ⟨some e, parseResultSets provider 0 promptTokenCounts completionTokenCounts,
            [.estimateOpenAiTotalCost chatRes.model promptTokenCounts completionTokenCounts]⟩
        | .ok cost =>
          ⟨none, parseResultSets provider cost promptTokenCounts completionTokenCounts,
            [.estimateOpenAiTotalCost chatRes.model promptTokenCounts completionTokenCounts]⟩
      else ⟨none, parseResultSets provider 0 promptTokenCounts completionTokenCounts, []⟩

/-- The cache lookup of route.go lines 60-73: a hit needs a non-empty
cache_key, err == nil and a non-empty byte slice. -/
def cacheLookup (env : Env) (c : ReqCtx) : Option Bytes :=
  if c.cacheKey.length != 0 then
    match env.getBytes c.cacheKey with
    | .ok bs => if bs.length != 0 then some bs else none
    | .error _ => none
  else none

/-- The cacheGet effect of the lookup of route.go lines 63-64: GetBytes is
called exactly when the cache key is non-empty. -/
def cacheGetEffects (c : ReqCtx) : List Effect :=
  if c.cacheKey.length != 0 then [Effect.cacheGet c.cacheKey] else []

/-- The best-effort cache store of route.go lines 132-145: runs only when
the upstream status is 200, shouldCache holds and rc.CacheConfig is non-nil;
TTL-parse and StoreBytes failures are only logged. -/
def storeCachedResponse (env : Env) (c : ReqCtx) (statusCode : Nat)
    (bytes : Bytes) : List Effect :=
  if statusCode = 200 then
    match (if c.cacheKey.length != 0 then c.cacheConfigTtl else none) with
    | none => []
    | some ttlStr =>
      match env.parseDuration ttlStr with
      | .error _ => [.logErrorLine "error when parsing cache config ttl"]
      | .ok parsed =>
        match env.storeBytes c.cacheKey bytes parsed with
        | some _ => [.cacheStore c.cacheKey bytes parsed,
                     .logErrorLine "error when storing cached response"]
        | none => [.cacheStore c.cacheKey bytes parsed]
  else []

/-- route.go lines 111-172 once RunSteps succeeded and the body was read:
cache store and parseResult on 200, error logging otherwise, then header
copy and c.Data with the upstream status and body. -/
def upstreamOutcome (env : Env) (c : ReqCtx) (runRes : RunRes)
    (bytes : Bytes) : HandlerResult :=
  let modelSet := [("model", CtxValue.str runRes.model)]
  let storeEffects := storeCachedResponse env c runRes.response.statusCode bytes
  let parseOut : Option ParseOut :=
    if runRes.response.statusCode = 200 then
      some (parseResult env c.encodingFormat c.runEmbeddings bytes
        runRes.model runRes.provider)
    else none
  let parseCtx := match parseOut with
    | some po => po.ctxSets
    | none => []
  let parseEffects : List Effect :=
    match parseOut with
    | some po =>
      .parseResultCall :: po.effects ++
        (match po.err with
         | some _ => [.logErrorLine "error when parsing run steps result"]
         | none => [])
    | none => [.logErrorLine "openai error response"]
  ⟨runRes.response.statusCode, .data bytes,
    copyRespHeaders runRes.response.header,
    modelSet ++ parseCtx,
    cacheGetEffects c ++ [.runStepsCall] ++ storeEffects ++ parseEffects⟩

/-- getRouteHandler of route.go (lines 30-174). -/
def getRouteHandler (env : Env) (c : ReqCtx) : HandlerResult :=
  if c.requestNil then
    ⟨500, .jsonMsg "[BricksLLM] context is empty", [], [], []⟩
  else if !c.hasKey then
    ⟨401, .jsonMsg "[BricksLLM] api key is not registered", [], [], []⟩
  else if !c.hasRouteConfig then
    ⟨404, .jsonMsg "[BricksLLM] route config not found", [], [], []⟩
  else
    match cacheLookup env c with
    | some bs =>
      ⟨200, .data bs, [], [("provider", .str "cached")], cacheGetEffects c⟩
    | none =>
      if !c.hasSettings then
        ⟨404, .jsonMsg "[BricksLLM] provider settings not found", [], [],
          cacheGetEffects c⟩
      else
        match env.runSteps with
        | .error e =>
          if e.isDeadlineExceeded then
            ⟨408, .jsonMsg "[BricksLLM] request timeout", [], [],
              cacheGetEffects c ++ [.runStepsCall, .logErrorLine "running steps time out"]⟩
          else
            ⟨500, .jsonMsg "[BricksLLM] cannot run route steps", [], [],
              cacheGetEffects c ++ [.runStepsCall, .logErrorLine "error when running steps"]⟩
        | .ok runRes =>
          match runRes.response.bodyRead with
          | .error _ =>
            ⟨500, .jsonMsg "[BricksLLM] failed to read route response body", [],
              [("model", CtxValue.str runRes.model)],
              cacheGetEffects c ++ [.runStepsCall,
                .logErrorLine "error when reading route response body"]⟩
          | .ok bytes => upstreamOutcome env c runRes bytes

/-- Middleware preconditions: a registered key, a route config, provider
settings, and a non-nil request. -/
def ReqCtx.wellFormed (c : ReqCtx) : Prop :=
  c.requestNil = false ∧ c.hasKey = true ∧ c.hasRouteConfig = true ∧
    c.hasSettings = true

/-- Client response header lookup (first entry with the name). -/
def lookupRespHeader (hs : List (String × String)) (name : String) :
    Option String :=
  (hs.find? (fun p => p.1 == name)).map (fun p => p.2)

/-- Net effect on one header name of applying c.Header per value in order:
the last value wins, an empty last value leaves the header absent. -/
def lastSetValue (vs : List String) : Option String :=
  match vs.getLast? with
  | none => none
  | some v => if v = "" then none else some v

/-- One step of the process shutdown path of cmd/bricksllm/main.go. -/
inductive ShutdownAction where
  | stopEventConsumers
  | stopKeyMemDb
  | stopProviderSettingsMemDb
  | stopCustomProvidersMemDb
  | stopRoutesMemDb
  | stopAcceptingAdmin
  | stopAcceptingProxy
  | shutdownAdminServer : Nat → ShutdownAction
  | shutdownProxyServer : Nat → ShutdownAction
  | processExit
deriving Repr, DecidableEq

/-- The shutdown sequence main runs after receiving SIGINT or SIGTERM
(main.go lines 242-271): consumer stop, the four replica refresher stops,
then Shutdown of the admin and proxy servers, each under a 5-second
context.  http.Server.Shutdown both stops accepting new connections and
closes within the context deadline; there is no separate stop-accepting
step before it. -/
def mainShutdownSequence : List ShutdownAction :=
  [.stopEventConsumers, .stopKeyMemDb, .stopProviderSettingsMemDb,
   .stopCustomProvidersMemDb, .stopRoutesMemDb,
   .shutdownAdminServer 5, .shutdownProxyServer 5, .processExit]

/-- Modelled from the spec: the shutdown order of §6 "Shutdown protocol" -
stop accepting new connections on both listeners first, then consumers,
then refreshers, then close both servers with a 5-second grace period,
then exit. -/
def claimedShutdownSequence : List ShutdownAction :=
  [.stopAcceptingAdmin, .stopAcceptingProxy, .stopEventConsumers,
   .stopKeyMemDb, .stopProviderSettingsMemDb, .stopCustomProvidersMemDb,
   .stopRoutesMemDb, .shutdownAdminServer 5, .shutdownProxyServer 5,
   .processExit]

/-- Actions that stop a listener from accepting new connections (Shutdown
does so as its first step). -/
def stopsAcceptingConnections : ShutdownAction → Bool
  | .stopAcceptingAdmin => true
  | .stopAcceptingProxy => true
  | .shutdownAdminServer _ => true
  | .shutdownProxyServer _ => true
  | _ => false

/-- Whether some listener stops accepting connections strictly before the
event consumers are stopped. -/
def acceptStopsBeforeConsumerStop (seq : List ShutdownAction) : Bool :=
  (seq.takeWhile (fun a => a != ShutdownAction.stopEventConsumers)).any
    stopsAcceptingConnections

/-- An Env whose collaborators all answer trivially; concrete test
environments override individual fields. -/
def defaultEnv : Env where
  getBytes := fun _ => .error (.other "miss")
  storeBytes := fun _ _ _ => none
  parseDuration := fun _ => .ok 60000000000
  runSteps := .error (.other "no steps")
  unmarshalEmbedding := fun _ => .error (.other "unmarshal")
  unmarshalEmbeddingBase64 := fun _ => .error (.other "unmarshal")
  unmarshalChat := fun _ => .error (.other "unmarshal")
  azureEstimateEmbeddingsInputCost := fun _ _ => .ok 0
  openaiEstimateEmbeddingsInputCost := fun _ _ => .ok 0
  azureEstimateTotalCost := fun _ _ _ => .ok 0
  openaiEstimateTotalCost := fun _ _ _ => .ok 0

/-- A request context that passed all middleware checks, with caching
configured under key "k1" and a 60s TTL. -/
def baseCtx : ReqCtx :=
  ⟨false, true, true, some "60s", "k1", true, "", false⟩

lemma getRouteHandler_runError (env : Env) (c : ReqCtx) (e : GoError)
    (hwf : c.wellFormed) (hmiss : cacheLookup env c = none)
    (hrs : env.runSteps = .error e) :
    getRouteHandler env c =
      if e.isDeadlineExceeded then
        ⟨408, .jsonMsg "[BricksLLM] request timeout", [], [],
          cacheGetEffects c ++ [.runStepsCall, .logErrorLine "running steps time out"]⟩
      else
        ⟨500, .jsonMsg "[BricksLLM] cannot run route steps", [], [],
          cacheGetEffects c ++ [.runStepsCall, .logErrorLine "error when running steps"]⟩ := by
  obtain ⟨h1, h2, h3, h4⟩ := hwf
  simp [getRouteHandler, h1, h2, h3, h4, hmiss, hrs]

lemma getRouteHandler_upstream (env : Env) (c : ReqCtx) (runRes : RunRes)
    (bytes : Bytes) (hwf : c.wellFormed) (hmiss : cacheLookup env c = none)
    (hrs : env.runSteps = .ok runRes)
    (hrd : runRes.response.bodyRead = .ok bytes) :
    getRouteHandler env c = upstreamOutcome env c runRes bytes := by
  obtain ⟨h1, h2, h3, h4⟩ := hwf
  simp [getRouteHandler, h1, h2, h3, h4, hmiss, hrs, hrd]

/-- C1: a non-empty cache key whose GetBytes lookup returns, without error,
a non-empty byte slice makes the handler answer 200 with exactly those
bytes; its only external effect is the cache read, so RunSteps, parseResult,
StoreBytes, admission and event emission are all skipped. -/
theorem cache_hit_serves_cached_bytes (env : Env) (c : ReqCtx) (bs : Bytes)
    (h1 : c.requestNil = false) (h2 : c.hasKey = true)
    (h3 : c.hasRouteConfig = true) (hck : c.cacheKey.length ≠ 0)
    (hget : env.getBytes c.cacheKey = .ok bs) (hbs : bs.length ≠ 0) :
    getRouteHandler env c =
      ⟨200, .data bs, [], [("provider", .str "cached")],
        [.cacheGet c.cacheKey]⟩ := by
  have hck' : (c.cacheKey.length != 0) = true := by
    simp [bne_iff_ne, hck]
  have hbs' : (bs.length != 0) = true := by
    simp [bne_iff_ne, hbs]
  have hcl : cacheLookup env c = some bs := by
    simp [cacheLookup, hck', hget, hbs']
  simp [getRouteHandler, h1, h2, h3, hcl, cacheGetEffects, hck']

def env1 : Env := { defaultEnv with getBytes := fun _ => .ok [7, 8] }

theorem cache_hit_serves_cached_bytes_witness :
    getRouteHandler env1 baseCtx =
      ⟨200, .data [7, 8], [], [("provider", .str "cached")],
        [.cacheGet "k1"]⟩ :=
  cache_hit_serves_cached_bytes env1 baseCtx [7, 8] rfl rfl rfl
    (by decide) rfl (by decide)

/-- C3: no invocation of parseResult (embeddings or chat, any provider, any
outcome) ever performs a recorder spend-recording call: the RecordKeySpend
calls are commented out in the source, so the effect trace never contains
one. -/
theorem parse_result_never_records_spend (env : Env) (encodingFormat : String)
    (runEmbeddings : Bool) (bytes : Bytes) (model provider : String) :
    ∀ k m, Effect.recordKeySpend k m ∉
      (parseResult env encodingFormat runEmbeddings bytes model provider).effects := by
  intro k m
  unfold parseResult embeddingsCost
  repeat' split
  all_goals simp only []
  all_goals repeat' split
  all_goals simp

/-- C5: a RunSteps failure satisfying errors.Is(err, context.DeadlineExceeded)
yields 408 with body "[BricksLLM] request timeout"; any other RunSteps error
yields 500. -/
theorem run_steps_error_status_mapping (env : Env) (c : ReqCtx) (e : GoError)
    (hwf : c.wellFormed) (hmiss : cacheLookup env c = none)
    (hrs : env.runSteps = .error e) :
    (e.isDeadlineExceeded = true →
      (getRouteHandler env c).status = 408 ∧
      (getRouteHandler env c).body = .jsonMsg "[BricksLLM] request timeout")
    ∧ (e.isDeadlineExceeded = false → (getRouteHandler env c).status = 500) := by
  rw [getRouteHandler_runError env c e hwf hmiss hrs]
  constructor
  · intro hd
    simp [hd]
  · intro hd
    simp [hd]

def env5 : Env := { defaultEnv with runSteps := .error .deadlineExceeded }

theorem run_steps_error_status_mapping_witness :
    (getRouteHandler env5 baseCtx).status = 408 ∧
    (getRouteHandler env5 baseCtx).body = .jsonMsg "[BricksLLM] request timeout" :=
  (run_steps_error_status_mapping env5 baseCtx .deadlineExceeded
    ⟨rfl, rfl, rfl, rfl⟩ rfl rfl).1 rfl

/-- C9: when the chosen provider is neither "azure" nor "openai", the cost
attached to the request context by parseResult is exactly 0, whatever the
response contains. -/
theorem non_azure_openai_cost_zero (env : Env) (encodingFormat : String)
    (runEmbeddings : Bool) (bytes : Bytes) (model provider : String)
    (ha : provider ≠ "azure") (ho : provider ≠ "openai") :
    ((parseResult env encodingFormat runEmbeddings bytes model
        provider).ctxSets).lookup "costInUsd" = some (.num 0) := by
  unfold parseResult embeddingsCost
  repeat' split
  all_goals simp_all [parseResultSets, List.lookup]

def env9 : Env :=
  { defaultEnv with unmarshalChat := fun _ => .ok ⟨"claude", ⟨5, 7, 12⟩⟩ }

theorem non_azure_openai_cost_zero_witness :
    ((parseResult env9 "" false [1] "claude" "anthropic").ctxSets).lookup
      "costInUsd" = some (.num 0) :=
  non_azure_openai_cost_zero env9 "" false [1] "claude" "anthropic"
    (by decide) (by decide)

/-- Classifier for the effects parseResult can emit. -/
def Effect.isEstimatorCall : Effect → Bool
  | .estimateAzureEmbeddingsCost _ _ => true
  | .estimateOpenAiEmbeddingsCost _ _ => true
  | .estimateAzureTotalCost _ _ _ => true
  | .estimateOpenAiTotalCost _ _ _ => true
  | _ => false

lemma parseResult_effects_are_estimator_calls (env : Env)
    (encodingFormat : String) (runEmbeddings : Bool) (bytes : Bytes)
    (model provider : String) :
    ∀ eff ∈ (parseResult env encodingFormat runEmbeddings bytes model
      provider).effects, eff.isEstimatorCall = true := by
  intro eff h
  unfold parseResult embeddingsCost at h
  repeat' split at h
  all_goals simp only [] at h
  all_goals repeat' split at h
  all_goals simp_all [Effect.isEstimatorCall]

lemma cacheStore_not_in_cacheGetEffects (c : ReqCtx) (k : String) (v : Bytes)
    (ttl : Int) : Effect.cacheStore k v ttl ∉ cacheGetEffects c := by
  unfold cacheGetEffects
  split <;> simp

/-- C4: when the upstream answered 200 and parseResult fails, the handler
still answers 200 with the upstream body, and the failure is only logged. -/
theorem parse_error_keeps_success_response (env : Env) (c : ReqCtx)
    (runRes : RunRes) (bytes : Bytes) (perr : GoError)
    (hwf : c.wellFormed) (hmiss : cacheLookup env c = none)
    (hrs : env.runSteps = .ok runRes)
    (hrd : runRes.response.bodyRead = .ok bytes)
    (hst : runRes.response.statusCode = 200)
    (hperr : (parseResult env c.encodingFormat c.runEmbeddings bytes
        runRes.model runRes.provider).err = some perr) :
    (getRouteHandler env c).status = 200 ∧
    (getRouteHandler env c).body = .data bytes ∧
    Effect.logErrorLine "error when parsing run steps result" ∈
      (getRouteHandler env c).effects := by
  rw [getRouteHandler_upstream env c runRes bytes hwf hmiss hrs hrd]
  unfold upstreamOutcome
  simp [hst, hperr]

def env4 : Env :=
  { defaultEnv with runSteps := .ok ⟨⟨200, [], .ok [1, 2]⟩, "openai", "gpt-4"⟩ }

theorem parse_error_keeps_success_response_witness :
    (getRouteHandler env4 baseCtx).status = 200 ∧
    (getRouteHandler env4 baseCtx).body = .data [1, 2] ∧
    Effect.logErrorLine "error when parsing run steps result" ∈
      (getRouteHandler env4 baseCtx).effects :=
  parse_error_keeps_success_response env4 baseCtx
    ⟨⟨200, [], .ok [1, 2]⟩, "openai", "gpt-4"⟩ [1, 2] (.other "unmarshal")
    ⟨rfl, rfl, rfl, rfl⟩ rfl rfl rfl rfl rfl

lemma cacheStore_mem_storeCachedResponse (env : Env) (c : ReqCtx)
    (statusCode : Nat) (bytes : Bytes) (k : String) (v : Bytes) (ttl : Int)
    (h : Effect.cacheStore k v ttl ∈ storeCachedResponse env c statusCode bytes) :
    statusCode = 200 ∧ k = c.cacheKey ∧ v = bytes ∧
      ∃ ttlStr, c.cacheConfigTtl = some ttlStr ∧
        env.parseDuration ttlStr = .ok ttl := by
  unfold storeCachedResponse at h
  by_cases hsc : statusCode = 200
  · rw [if_pos hsc] at h
    rcases hif : (if c.cacheKey.length != 0 then c.cacheConfigTtl else none) with
      _ | ttlStr
    · rw [hif] at h
      simp at h
    · rw [hif] at h
      have httl : c.cacheConfigTtl = some ttlStr := by
        by_cases hb : (c.cacheKey.length != 0) = true
        · rwa [if_pos hb] at hif
        · rw [if_neg hb] at hif
          cases hif
      dsimp only [] at h
      rcases hpd : env.parseDuration ttlStr with e | parsed
      · rw [hpd] at h
        simp at h
      · rw [hpd] at h
        dsimp only [] at h
        rcases hsb : env.storeBytes c.cacheKey bytes parsed with _ | e
        · rw [hsb] at h
          have heq := List.mem_singleton.mp h
          injection heq with hk hv ht
          subst hk
          subst hv
          subst ht
          exact ⟨hsc, rfl, rfl, ttlStr, httl, hpd⟩
        · rw [hsb] at h
          rcases List.mem_cons.mp h with heq | h2
          · injection heq with hk hv ht
            subst hk
            subst hv
            subst ht
            exact ⟨hsc, rfl, rfl, ttlStr, httl, hpd⟩
          · simp at h2
  · rw [if_neg hsc] at h
    simp at h

lemma cacheStore_only_on_200 (env : Env) (c : ReqCtx) (rr : RunRes)
    (hrs : env.runSteps = .ok rr) (hst : rr.response.statusCode ≠ 200) :
    ∀ k v ttl, Effect.cacheStore k v ttl ∉ (getRouteHandler env c).effects := by
  intro k v ttl
  unfold getRouteHandler upstreamOutcome storeCachedResponse
  repeat' split
  all_goals
    simp_all [cacheStore_not_in_cacheGetEffects]

/-- C6: storing a 200 response in the cache is best-effort: whatever
ParseDuration and StoreBytes return, the client still gets 200 with the
upstream body; and every StoreBytes call carries the cache key, the
response bytes and the TTL parsed from cache_config.ttl, and only happens
when the upstream status is 200. -/
theorem store_bytes_best_effort (env : Env) (c : ReqCtx) (runRes : RunRes)
    (bytes : Bytes)
    (hwf : c.wellFormed) (hmiss : cacheLookup env c = none)
    (hrs : env.runSteps = .ok runRes)
    (hrd : runRes.response.bodyRead = .ok bytes)
    (hst : runRes.response.statusCode = 200) :
    ((getRouteHandler env c).status = 200 ∧
     (getRouteHandler env c).body = .data bytes) ∧
    (∀ k v ttl, Effect.cacheStore k v ttl ∈ (getRouteHandler env c).effects →
      k = c.cacheKey ∧ v = bytes ∧
      ∃ ttlStr, c.cacheConfigTtl = some ttlStr ∧
        env.parseDuration ttlStr = .ok ttl) ∧
    (∀ (env2 : Env) (c2 : ReqCtx) (rr : RunRes), env2.runSteps = .ok rr →
      rr.response.statusCode ≠ 200 →
      ∀ k v ttl, Effect.cacheStore k v ttl ∉ (getRouteHandler env2 c2).effects) := by
  rw [getRouteHandler_upstream env c runRes bytes hwf hmiss hrs hrd]
  refine ⟨⟨?_, ?_⟩, ?_, ?_⟩
  · simp [upstreamOutcome, hst]
  · simp [upstreamOutcome, hst]
  · intro k v ttl hmem
    unfold upstreamOutcome at hmem
    have h1 := cacheStore_not_in_cacheGetEffects c k v ttl
    have h2 : Effect.cacheStore k v ttl ∉
        (parseResult env c.encodingFormat c.runEmbeddings bytes runRes.model
          runRes.provider).effects := fun hx => by
      have := parseResult_effects_are_estimator_calls env c.encodingFormat
        c.runEmbeddings bytes runRes.model runRes.provider _ hx
      simp [Effect.isEstimatorCall] at this
    rcases hpe : (parseResult env c.encodingFormat c.runEmbeddings bytes
        runRes.model runRes.provider).err with _ | e <;>
      simp only [hst, reduceIte, hpe, List.mem_append, List.mem_cons, h1, h2,
        List.mem_singleton, List.not_mem_nil, false_or, or_false,
        reduceCtorEq] at hmem
    all_goals
      exact (cacheStore_mem_storeCachedResponse env c 200 bytes k v ttl hmem).2
  · intro env2 c2 rr hrs2 hst2 k v ttl
    exact cacheStore_only_on_200 env2 c2 rr hrs2 hst2 k v ttl

def env6 : Env :=
  { defaultEnv with
      runSteps := .ok ⟨⟨200, [], .ok [1, 2]⟩, "openai", "gpt-4"⟩,
      storeBytes := fun _ _ _ => some (.other "redis down") }

theorem store_bytes_best_effort_witness :
    (getRouteHandler env6 baseCtx).status = 200 ∧
    (getRouteHandler env6 baseCtx).body = .data [1, 2] :=
  (store_bytes_best_effort env6 baseCtx
    ⟨⟨200, [], .ok [1, 2]⟩, "openai", "gpt-4"⟩ [1, 2]
    ⟨rfl, rfl, rfl, rfl⟩ rfl rfl rfl rfl).1

/-- C10: on an embeddings route the completion token count attached to the
context is always 0, for every encoding format and response: the embeddings
branch never assigns completionTokenCounts. -/
theorem embeddings_completion_tokens_zero (env : Env) (encodingFormat : String)
    (bytes : Bytes) (model provider : String) :
    ((parseResult env encodingFormat true bytes model
        provider).ctxSets).lookup "completionTokenCount" = some (.nat 0) := by
  unfold parseResult embeddingsCost
  repeat' split
  all_goals simp only []
  all_goals repeat' split
  all_goals simp_all [parseResultSets, List.lookup]

lemma find_filter_ne (hs : List (String × String)) (n : String) :
    (hs.filter (fun p => p.1 != n)).find? (fun p => p.1 == n) = none := by
  rw [List.find?_eq_none]
  intro x hx
  have hmem := List.of_mem_filter hx
  simp only [bne_iff_ne, ne_eq] at hmem
  simp [hmem]

lemma find_filter_ne_other (hs : List (String × String)) (n m : String)
    (hm : m ≠ n) :
    (hs.filter (fun p => p.1 != n)).find? (fun p => p.1 == m) =
      hs.find? (fun p => p.1 == m) := by
  induction hs with
  | nil => rfl
  | cons p t ih =>
    by_cases hp : p.1 = n
    · have hdrop : (p.1 != n) = false := by simp [hp]
      have hpm : (p.1 == m) = false := by
        simp [hp]
        exact fun h => hm h.symm
      simp [List.filter_cons, hdrop, List.find?_cons, hpm, ih]
    · have hkeep : (p.1 != n) = true := by simp [hp]
      by_cases hpm : (p.1 == m) = true
      · simp [List.filter_cons, hkeep, List.find?_cons, hpm]
      · simp only [Bool.not_eq_true] at hpm
        simp [List.filter_cons, hkeep, List.find?_cons, hpm, ih]

lemma find_map_replace (l : List (String × String)) (n v : String)
    (h : l.any (fun p => p.1 == n) = true) :
    (l.map (fun p => if p.1 == n then (n, v) else p)).find?
      (fun p => p.1 == n) = some (n, v) := by
  induction l with
  | nil => simp at h
  | cons p t ih =>
    rw [List.map_cons]
    cases hp : (p.1 == n) with
    | true =>
      rw [show (if true = true then (n, v) else p) = (n, v) from rfl]
      simp [List.find?_cons]
    | false =>
      rw [show (if false = true then (n, v) else p) = p from rfl]
      simp only [List.find?_cons, hp]
      apply ih
      simp only [List.any_cons, hp, Bool.false_or] at h
      exact h

lemma find_map_replace_other (l : List (String × String)) (n v m : String)
    (hm : m ≠ n) :
    (l.map (fun p => if p.1 == n then (n, v) else p)).find?
      (fun p => p.1 == m) = l.find? (fun p => p.1 == m) := by
  induction l with
  | nil => rfl
  | cons p t ih =>
    rw [List.map_cons]
    cases hp : (p.1 == n) with
    | true =>
      have hpn : p.1 = n := by simpa using hp
      have h1 : ((n : String) == m) = false :=
        beq_eq_false_iff_ne.mpr (Ne.symm hm)
      have h2 : (p.1 == m) = false := by
        rw [hpn]
        exact h1
      rw [show (if true = true then (n, v) else p) = (n, v) from rfl]
      simp only [List.find?_cons, h1, h2]
      exact ih
    | false =>
      rw [show (if false = true then (n, v) else p) = p from rfl]
      cases hpm : (p.1 == m) with
      | true => simp only [List.find?_cons, hpm]
      | false =>
        simp only [List.find?_cons, hpm]
        exact ih

lemma find_append_not_found (l : List (String × String)) (n v : String)
    (h : l.any (fun p => p.1 == n) = false) :
    (l ++ [(n, v)]).find? (fun p => p.1 == n) = some (n, v) := by
  induction l with
  | nil => simp [List.find?_cons]
  | cons p t ih =>
    simp only [List.any_cons, Bool.or_eq_false_iff] at h
    simp [List.find?_cons, h.1, ih h.2]

lemma find_append_single_other (l : List (String × String)) (n v m : String)
    (hm : m ≠ n) :
    (l ++ [(n, v)]).find? (fun p => p.1 == m) =
      l.find? (fun p => p.1 == m) := by
  induction l with
  | nil =>
    have h1 : ((n : String) == m) = false := by
      simp
      exact fun h => hm h.symm
    simp [List.find?_cons, h1]
  | cons p t ih =>
    by_cases hpm : (p.1 == m) = true
    · simp [List.find?_cons, hpm]
    · simp only [Bool.not_eq_true] at hpm
      simp [List.find?_cons, hpm, ih]

lemma lookupRespHeader_setRespHeader_self (hs : List (String × String))
    (n v : String) :
    lookupRespHeader (setRespHeader hs n v) n =
      if v = "" then none else some v := by
  unfold setRespHeader lookupRespHeader
  by_cases hv : v = ""
  · simp only [hv, if_pos]
    rw [find_filter_ne]
    rfl
  · rw [if_neg hv, if_neg hv]
    by_cases hany : hs.any (fun p => p.1 == n) = true
    · rw [if_pos hany, find_map_replace hs n v hany]
      rfl
    · simp only [Bool.not_eq_true] at hany
      rw [hany]
      simp only [Bool.false_eq_true, if_false]
      rw [find_append_not_found hs n v hany]
      rfl

lemma lookupRespHeader_setRespHeader_other (hs : List (String × String))
    (n v m : String) (hm : m ≠ n) :
    lookupRespHeader (setRespHeader hs n v) m = lookupRespHeader hs m := by
  unfold setRespHeader lookupRespHeader
  by_cases hv : v = ""
  · simp only [hv, if_pos]
    rw [find_filter_ne_other hs n m hm]
  · rw [if_neg hv]
    by_cases hany : hs.any (fun p => p.1 == n) = true
    · rw [if_pos hany, find_map_replace_other hs n v m hm]
    · simp only [Bool.not_eq_true] at hany
      rw [hany]
      simp only [Bool.false_eq_true, if_false]
      rw [find_append_single_other hs n v m hm]

lemma lookupRespHeader_applyHeaderValues_self (vs : List String)
    (hs : List (String × String)) (n : String) :
    lookupRespHeader (applyHeaderValues hs n vs) n =
      match vs.getLast? with
      | none => lookupRespHeader hs n
      | some v => if v = "" then none else some v := by
  induction vs generalizing hs with
  | nil => rfl
  | cons v t ih =>
    cases t with
    | nil =>
      have h1 : applyHeaderValues hs n [v] = setRespHeader hs n v := rfl
      rw [h1, lookupRespHeader_setRespHeader_self]
      rfl
    | cons w t2 =>
      have h1 : applyHeaderValues hs n (v :: w :: t2) =
          applyHeaderValues (setRespHeader hs n v) n (w :: t2) := rfl
      rw [h1, ih, List.getLast?_cons_cons]
      rfl

lemma lookupRespHeader_applyHeaderValues_other (vs : List String)
    (hs : List (String × String)) (n m : String) (hm : m ≠ n) :
    lookupRespHeader (applyHeaderValues hs n vs) m = lookupRespHeader hs m := by
  induction vs generalizing hs with
  | nil => rfl
  | cons v t ih =>
    have h1 : applyHeaderValues hs n (v :: t) =
        applyHeaderValues (setRespHeader hs n v) n t := rfl
    rw [h1, ih, lookupRespHeader_setRespHeader_other hs n v m hm]

lemma lookupRespHeader_foldl_not_mem (us : List (String × List String))
    (acc : List (String × String)) (n : String)
    (h : n ∉ us.map Prod.fst) :
    lookupRespHeader
      (us.foldl (fun hs nv => applyHeaderValues hs nv.1 nv.2) acc) n =
      lookupRespHeader acc n := by
  induction us generalizing acc with
  | nil => rfl
  | cons nv t ih =>
    simp only [List.map_cons, List.mem_cons, not_or] at h
    rw [List.foldl_cons, ih _ h.2,
      lookupRespHeader_applyHeaderValues_other nv.2 acc nv.1 n h.1]

lemma copyRespHeaders_foldl_lookup (us : List (String × List String))
    (acc : List (String × String))
    (hnd : (us.map Prod.fst).Nodup)
    (hacc : ∀ nv ∈ us, lookupRespHeader acc nv.1 = none) :
    ∀ nv ∈ us,
      lookupRespHeader
        (us.foldl (fun hs x => applyHeaderValues hs x.1 x.2) acc) nv.1 =
        lastSetValue nv.2 := by
  induction us generalizing acc with
  | nil =>
    intro nv h
    cases h
  | cons hd t ih =>
    intro nv hmemb
    simp only [List.map_cons, List.nodup_cons] at hnd
    rcases List.mem_cons.mp hmemb with heq | hmemt
    · subst heq
      rw [List.foldl_cons,
        lookupRespHeader_foldl_not_mem t _ nv.1 hnd.1,
        lookupRespHeader_applyHeaderValues_self]
      have hacc0 : lookupRespHeader acc nv.1 = none :=
        hacc nv (List.mem_cons_self nv t)
      unfold lastSetValue
      cases hlast : nv.2.getLast? with
      | none => simp [hacc0]
      | some v => rfl
    · rw [List.foldl_cons]
      refine ih _ hnd.2 ?_ nv hmemt
      intro x hx
      have hxne : x.1 ≠ hd.1 := by
        intro hcontra
        exact hnd.1 (hcontra ▸ List.mem_map_of_mem Prod.fst hx)
      rw [lookupRespHeader_applyHeaderValues_other hd.2 acc hd.1 x.1 hxne]
      exact hacc x (List.mem_cons_of_mem hd hx)

lemma copyRespHeaders_lookup (us : List (String × List String))
    (hnd : (us.map Prod.fst).Nodup) :
    ∀ nv ∈ us,
      lookupRespHeader (copyRespHeaders us) nv.1 = lastSetValue nv.2 := by
  intro nv h
  exact copyRespHeaders_foldl_lookup us [] hnd (fun _ _ => rfl) nv h

def env2 : Env :=
  { defaultEnv with
      runSteps := .ok ⟨⟨502, [("X-Test", ["a", "b"])], .ok [1, 2]⟩,
        "openai", "gpt-4"⟩ }

/-- C2 (counterexample): with upstream status 502, body [1, 2] and header
X-Test carrying the two values "a" then "b", the client does see 502 and
the body unchanged, but its headers are exactly [("X-Test", "b")]: the
pair ("X-Test", "a") is not copied, because gin's c.Header sets (replaces)
per call; so "every upstream response header name/value pair is copied"
is false on the code. -/
theorem header_pair_copy_counterexample :
    (getRouteHandler env2 baseCtx).status = 502 ∧
    (getRouteHandler env2 baseCtx).body = .data [1, 2] ∧
    (getRouteHandler env2 baseCtx).headers = [("X-Test", "b")] ∧
    ("X-Test", "a") ∉ (getRouteHandler env2 baseCtx).headers := by
  refine ⟨rfl, rfl, rfl, ?_⟩
  decide

/-- C2 (amended): when the final step's response comes back (non-2xx
included), the client receives the upstream status code and body unchanged,
and the headers produced by applying c.Header to every upstream name/value
pair in order; when upstream header names are distinct this means each name
carries the LAST of its upstream values (an empty last value removes the
name) - earlier values of a multi-valued header are overwritten, not
copied. -/
theorem upstream_error_pass_through (env : Env) (c : ReqCtx)
    (runRes : RunRes) (bytes : Bytes)
    (hwf : c.wellFormed) (hmiss : cacheLookup env c = none)
    (hrs : env.runSteps = .ok runRes)
    (hrd : runRes.response.bodyRead = .ok bytes)
    (_hst : runRes.response.statusCode ≠ 200) :
    (getRouteHandler env c).status = runRes.response.statusCode ∧
    (getRouteHandler env c).body = .data bytes ∧
    (getRouteHandler env c).headers = copyRespHeaders runRes.response.header ∧
    ((runRes.response.header.map Prod.fst).Nodup →
      ∀ nv ∈ runRes.response.header,
        lookupRespHeader (getRouteHandler env c).headers nv.1 =
          lastSetValue nv.2) := by
  rw [getRouteHandler_upstream env c runRes bytes hwf hmiss hrs hrd]
  refine ⟨rfl, rfl, rfl, ?_⟩
  intro hnd nv h
  exact copyRespHeaders_lookup runRes.response.header hnd nv h

def env2w : Env :=
  { defaultEnv with
      runSteps := .ok ⟨⟨503, [("Retry-After", ["1", "30"])], .ok [9]⟩,
        "openai", "gpt-4"⟩ }

theorem upstream_error_pass_through_witness :
    (getRouteHandler env2w baseCtx).status = 503 ∧
    (getRouteHandler env2w baseCtx).body = .data [9] ∧
    lookupRespHeader (getRouteHandler env2w baseCtx).headers "Retry-After" =
      some "30" :=
  have h := upstream_error_pass_through env2w baseCtx
    ⟨⟨503, [("Retry-After", ["1", "30"])], .ok [9]⟩, "openai", "gpt-4"⟩ [9]
    ⟨rfl, rfl, rfl, rfl⟩ rfl rfl rfl (by decide)
  ⟨h.1, h.2.1,
    h.2.2.2 (by decide) ("Retry-After", ["1", "30"]) (by decide)⟩

/-- Modelled from the spec: §4.6 step 3 of the spec computes
cost_micro_usd = round(cost_usd × 1_000_000); this is the claim side of the
comparison, not anything route.go computes. -/
def microUsd (costUsd : ℚ) : ℤ := round (costUsd * 1000000)

def env7 : Env :=
  { defaultEnv with
      unmarshalChat := fun _ => .ok ⟨"gpt-4", ⟨2, 1, 3⟩⟩,
      openaiEstimateTotalCost := fun _ _ _ => .ok (3 / 25000) }

/-- C7 (counterexample): for a 200 chat response with usage {2, 1, 3} and an
estimated cost of 0.00012 USD, parseResult attaches ("costInUsd", 3/25000)
- the raw USD float - to the context; the micro-USD value
round(cost × 1e6) = 120 appears in no context write, so the claim that the
cost is attached in micro-USD is false on the code (the conversion sits in
the commented-out RecordKeySpend block). -/
theorem cost_attachment_counterexample :
    (parseResult env7 "" false [1] "gpt-4" "openai").ctxSets =
      [("provider", .str "openai"), ("costInUsd", .num (3 / 25000)),
       ("promptTokenCount", .nat 2), ("completionTokenCount", .nat 1)] ∧
    microUsd (3 / 25000) = 120 ∧
    ∀ p ∈ (parseResult env7 "" false [1] "gpt-4" "openai").ctxSets,
      p.2 ≠ .num (120 : ℚ) := by
  refine ⟨rfl, ?_, ?_⟩
  · have h120 : (3 / 25000 : ℚ) * 1000000 = 120 := by norm_num
    rw [microUsd, h120]
    norm_num [round_eq]
  · intro p hp
    have hsets : (parseResult env7 "" false [1] "gpt-4" "openai").ctxSets =
        [("provider", .str "openai"), ("costInUsd", .num (3 / 25000)),
         ("promptTokenCount", .nat 2), ("completionTokenCount", .nat 1)] := rfl
    rw [hsets] at hp
    simp only [List.mem_cons, List.not_mem_nil, or_false] at hp
    rcases hp with h | h | h | h
    · subst h
      simp
    · subst h
      simp only [ne_eq, CtxValue.num.injEq]
      norm_num
    · subst h
      simp
    · subst h
      simp

/-- C7 (amended): every return of parseResult attaches exactly the four
keys provider, costInUsd, promptTokenCount and completionTokenCount (the
model is attached by the handler before parseResult runs); on a successful
openai chat parse the attached cost is the estimator's USD value itself -
parseResult performs no conversion to micro-USD. -/
theorem cost_attached_in_usd :
    (∀ (env : Env) (fmt : String) (emb : Bool) (bytes : Bytes)
        (model provider : String),
      ((parseResult env fmt emb bytes model provider).ctxSets.map Prod.fst) =
        ["provider", "costInUsd", "promptTokenCount", "completionTokenCount"])
    ∧ (∀ (env : Env) (fmt : String) (bytes : Bytes) (model : String)
        (res : ChatCompletionResponse) (cost : ℚ),
        env.unmarshalChat bytes = .ok res →
        env.openaiEstimateTotalCost res.model res.usage.promptTokens
          res.usage.completionTokens = .ok cost →
        (parseResult env fmt false bytes model "openai").ctxSets =
          parseResultSets "openai" cost res.usage.promptTokens
            res.usage.completionTokens) := by
  constructor
  · intro env fmt emb bytes model provider
    unfold parseResult embeddingsCost
    repeat' split
    all_goals simp only []
    all_goals repeat' split
    all_goals simp [parseResultSets]
  · intro env fmt bytes model res cost hun hest
    unfold parseResult
    rw [hun]
    simp only [Bool.false_eq_true, if_false]
    rw [if_neg (by decide : ¬ ("openai" : String) = "azure")]
    rw [if_pos trivial, hest]

theorem cost_attached_in_usd_witness :
    (parseResult env7 "" false [1] "gpt-4" "openai").ctxSets =
      parseResultSets "openai" (3 / 25000) 2 1 :=
  cost_attached_in_usd.2 env7 "" [1] "gpt-4" ⟨"gpt-4", ⟨2, 1, 3⟩⟩
    (3 / 25000) rfl rfl

/-- C8 (counterexample): in main's shutdown sequence the event consumers
stop FIRST - no action that stops a listener from accepting connections
precedes Effect of the consumer stop - whereas the claimed order stops both
listeners before the consumers; the two orders differ. -/
theorem shutdown_order_counterexample :
    acceptStopsBeforeConsumerStop mainShutdownSequence = false ∧
    acceptStopsBeforeConsumerStop claimedShutdownSequence = true ∧
    mainShutdownSequence ≠ claimedShutdownSequence := by
  decide

/-- C8 (amended): on SIGINT or SIGTERM main stops the event consumers
first, then the four in-memory replica refreshers (keys, provider
settings, custom providers, routes), then shuts down the admin server and
then the proxy server - each Shutdown stops accepting new connections and
closes with a 5-second grace period - then exits; no listener stops
accepting before the consumers are stopped. -/
theorem shutdown_sequence_of_main :
    mainShutdownSequence =
      [.stopEventConsumers, .stopKeyMemDb, .stopProviderSettingsMemDb,
       .stopCustomProvidersMemDb, .stopRoutesMemDb,
       .shutdownAdminServer 5, .shutdownProxyServer 5, .processExit] ∧
    acceptStopsBeforeConsumerStop mainShutdownSequence = false := by
  decide


end BricksLLM
